import Mathlib

/-!
Verification of the mend-sdk session/request core against its source.

The definitions below are a shallow embedding of the TypeScript sources:
  * `src/lib/errors.ts`  → `ErrorCode`, `MendError`
  * `src/lib/http.ts`    → `Body`, `HttpResp`, `FetchResult`, `HttpClient.fetchResp`
  * `src/lib/mutex.ts`   → `Mutex.SecSpec`, `Mutex.runFrom`, `Mutex.run`
  * `src/lib/index.ts`   → `MendSdk.*` (constructor, authenticate, completeLogin,
                           ensureAuth, request, submitMfaCode, switchOrg, logout)

Dynamic JSON values are modelled by `JsonObj`, a flat record holding exactly the
fields the source ever reads from a parsed body (`message`, `error`, `code`,
`token`, `payload.orgs`).  Times are epoch milliseconds as `Nat`.  Network
activity is made observable through `NetCall` traces, and server behaviour is a
`Server` record of scripted transport outcomes.
-/

/- ----------------------------------------------------------------------------
 - Error model (errors.ts)
 - -------------------------------------------------------------------------- -/

/-- The closed enumeration `ERROR_CODES` from errors.ts. -/
inductive ErrorCode
  | SDK_CONFIG
  | AUTH_MISSING_TOKEN
  | AUTH_MFA_REQUIRED
  | AUTH_INVALID_MFA
  | ORG_NOT_FOUND
  | HTTP_ERROR
deriving DecidableEq

/-- One JSON object, flattened to the fields the SDK source ever reads. -/
structure JsonObj where
  message : Option String := none
  error : Option String := none
  code : Option String := none
  token : Option String := none
  payloadOrgs : Option (List Nat) := none
deriving DecidableEq

/-- The parsed (or raw-text) body attached to a `MendError` as `details`. -/
inductive Details
  | parsed (o : JsonObj)
  | raw (t : String)
deriving DecidableEq

/-- Model of `MendError` from errors.ts: message, category code, optional HTTP status,
optional details.  (The diagnostic `context` field is not read by any code
path the claims concern and is omitted.) -/
structure MendError where
  message : String
  code : ErrorCode
  status : Option Nat := none
  details : Option Details := none
deriving DecidableEq

/-- Membership test `serverCode in ERROR_CODES`: membership of a string in the closed enum. -/
def errorCodeOfString : String → Option ErrorCode
  | "SDK_CONFIG" => some .SDK_CONFIG
  | "AUTH_MISSING_TOKEN" => some .AUTH_MISSING_TOKEN
  | "AUTH_MFA_REQUIRED" => some .AUTH_MFA_REQUIRED
  | "AUTH_INVALID_MFA" => some .AUTH_INVALID_MFA
  | "ORG_NOT_FOUND" => some .ORG_NOT_FOUND
  | "HTTP_ERROR" => some .HTTP_ERROR
  | _ => none

deriving instance DecidableEq for Except

/-- JavaScript string truthiness for an optional string field
(`undefined` and `""` are falsy). -/
def strTruthy : Option String → Bool
  | none => false
  | some s => !(s == "")

/- ----------------------------------------------------------------------------
 - Transport (http.ts)
 - -------------------------------------------------------------------------- -/

/-- A response body as seen by `resp.text()` followed by `JSON.parse`:
empty text, non-empty text that is not valid JSON, or text parsing to a
JSON object. -/
inductive Body
  | empty
  | invalid (text : String)
  | json (o : JsonObj)
deriving DecidableEq

/-- Model of `JSON.parse` on a body: empty and invalid text throw (return `none`). -/
def Body.parse : Body → Option JsonObj
  | .empty => none
  | .invalid _ => none
  | .json o => some o

/-- The raw text of a body, as `resp.text()` yields it. -/
def Body.text : Body → String
  | .empty => ""
  | .invalid t => t
  | .json o => "json:" ++ (o.message.getD "") ++ (o.code.getD "")

/-- Whether `resp.text()` returned non-empty text (JS truthiness of `text`). -/
def Body.nonempty : Body → Bool
  | .empty => false
  | .invalid t => !(t == "")
  | .json _ => true

/-- An HTTP response: `resp.ok`, `resp.status`, `resp.statusText`, body. -/
structure HttpResp where
  ok : Bool
  status : Nat
  statusText : String
  body : Body
deriving DecidableEq

/-- How one `HttpClient.fetch` call settles: resolves with a parsed object
(or `undefined` for an empty body), rejects with a `MendError`, or rejects
with a raw (non-`MendError`) JavaScript exception. -/
inductive FetchResult
  | success (v : Option JsonObj)
  | mendError (e : MendError)
  | jsException (msg : String)
deriving DecidableEq

namespace HttpClient

/-- Error-response handling of `HttpClient.fetch` (http.ts lines 102-130):
on `!resp.ok`, read the text, try to parse it, take the message from the
body's `message` or `error` field (falling back to `HTTP <status> – <statusText>`),
adopt a server-supplied `code` only when it belongs to `ERROR_CODES`, and
throw a `MendError` carrying status and details. -/
def errorResult (r : HttpResp) : MendError :=
  let generic := "HTTP " ++ toString r.status ++ " – " ++ r.statusText
  if r.body.nonempty then
    match r.body.parse with
    | some o =>
        let msg :=
          if strTruthy o.message then o.message.getD "" else
          if strTruthy o.error then o.error.getD "" else generic
        let code :=
          match o.code with
          | some s =>
              if s != "" then
                match errorCodeOfString s with
                | some c => c
                | none => ErrorCode.HTTP_ERROR
              else ErrorCode.HTTP_ERROR
          | none => ErrorCode.HTTP_ERROR
        { message := msg, code := code, status := some r.status,
          details := some (.parsed o) }
    | none =>
        { message := r.body.text, code := .HTTP_ERROR, status := some r.status,
          details := some (.raw r.body.text) }
  else
    { message := generic, code := .HTTP_ERROR, status := some r.status,
      details := none }

/-- Response handling of `HttpClient.fetch` (http.ts lines 101-135).
On success (`resp.ok`): empty text resolves to `undefined` without parsing
(line 134 guards with `text ?`); non-empty text goes through `JSON.parse`,
whose failure is NOT caught on this path, so invalid JSON escapes as a raw
`SyntaxError`, not a `MendError`. -/
def fetchResp (r : HttpResp) : FetchResult :=
  if r.ok then
    if r.body.nonempty then
      match r.body.parse with
      | some o => .success (some o)
      | none => .jsException "SyntaxError: Unexpected token in JSON"
    else
      .success none
  else
    .mendError (errorResult r)

end HttpClient

/- ----------------------------------------------------------------------------
 - SDK session core (index.ts, second/current revision, lines 347-957)
 - -------------------------------------------------------------------------- -/

namespace MendSdk

def DEFAULT_TOKEN_TTL_MINUTES : Nat := 55
def DEFAULT_REQUEST_TIMEOUT_MS : Nat := 30000
def DEFAULT_RETRY_ATTEMPTS : Nat := 0
def DEFAULT_RETRY_BACKOFF_MS : Nat := 100

/-- Constructor options `MendSdkOptions`.  String options are `Option String`
so that both a missing (`undefined`) and an empty value can be expressed;
both are falsy in the source's checks. -/
structure Options where
  apiEndpoint : Option String := none
  email : Option String := none
  password : Option String := none
  orgId : Option Nat := none
  mfaCode : Option String := none
  tokenTTL : Option Nat := none
  requestTimeout : Option Nat := none
  retryAttempts : Option Nat := none
  retryBackoff : Option Nat := none

/-- The mutable instance fields of `MendSdk` (index.ts lines 397-413), plus
the configuration fields the session flows read.  Organizations are
represented by their ids. -/
structure State where
  orgId : Option Nat
  mfaCode : Option String
  tokenTTL : Nat
  requestTimeout : Nat
  retryAttempts : Nat
  retryBackoff : Nat
  activeOrgId : Option Nat
  availableOrgs : Option (List Nat)
  jwt : Option String
  jwtExpiresAt : Nat
deriving DecidableEq

/-- The regex test `/^https:\/\//i` (index.ts line 420): the endpoint starts
with `https://`, case-insensitively. -/
def httpsPrefix (s : String) : Bool :=
  match s.data.map Char.toLower with
  | 'h' :: 't' :: 't' :: 'p' :: 's' :: ':' :: '/' :: '/' :: _ => true
  | _ => false

/-- The constructor (index.ts lines 415-437): reject missing/empty
`apiEndpoint`, `email`, `password` with `SDK_CONFIG`; reject a non-HTTPS
endpoint (`/^https:\/\//i`) with `SDK_CONFIG`; otherwise populate the
instance fields with defaults.  No network effect is possible here: the
result carries no `NetCall` trace at all. -/
def init (opts : Options) : Except MendError State :=
  if !(strTruthy opts.apiEndpoint) || !(strTruthy opts.email)
      || !(strTruthy opts.password) then
    .error { message := "apiEndpoint, email and password are required",
             code := .SDK_CONFIG }
  else if !(httpsPrefix (opts.apiEndpoint.getD "")) then
    .error { message := "apiEndpoint must use HTTPS", code := .SDK_CONFIG }
  else
    .ok { orgId := opts.orgId
          mfaCode := opts.mfaCode
          tokenTTL := opts.tokenTTL.getD DEFAULT_TOKEN_TTL_MINUTES
          requestTimeout := opts.requestTimeout.getD DEFAULT_REQUEST_TIMEOUT_MS
          retryAttempts := opts.retryAttempts.getD DEFAULT_RETRY_ATTEMPTS
          retryBackoff := opts.retryBackoff.getD DEFAULT_RETRY_BACKOFF_MS
          activeOrgId := none
          availableOrgs := none
          jwt := none
          jwtExpiresAt := 0 }

/-- Validity check `this.jwt && Date.now() < this.jwtExpiresAt` (index.ts line 499). -/
def tokenValid (st : State) (now : Nat) : Bool :=
  strTruthy st.jwt && decide (now < st.jwtExpiresAt)

/-- One observable network call, identified by endpoint. -/
inductive NetCall
  | postSession
  | putSessionMfa (code : String)
  | putSessionOrg (orgId : Nat)
  | getOrgList
  | resource (method : String) (path : String)
deriving DecidableEq

/-- How a session-layer operation settles: resolves, rejects with a
`MendError`, rejects with a raw JS exception, or — `stuck` — awaits the auth
mutex from inside the very flow that holds it (a nested `ensureAuth` that
misses its fast path) and therefore never settles. -/
inductive FlowRes (α : Type)
  | ok (v : α)
  | err (e : MendError)
  | jsExn (msg : String)
  | stuck
deriving DecidableEq

/-- Scripted transport outcomes standing for the server.  `session` and
`mfa` are the settled outcomes of the single direct `httpClient.fetch` that
`authenticate` and `submitMfaCode` issue.  `orgSwitch` and `orgList` feed
the nested `request` calls, which go through `fetchWithRetry`, so they are
streams indexed by attempt number. -/
structure Server where
  session : Except MendError (Option JsonObj)
  mfa : Except MendError (Option JsonObj)
  orgSwitch : Nat → Except MendError (Option JsonObj)
  orgList : Nat → Except MendError (Option JsonObj)

def authMissingTokenError : MendError :=
  { message := "JWT not returned by /session", code := .AUTH_MISSING_TOKEN }

/-- The retry loop of `fetchWithRetry` (index.ts lines 519-551), with
`outcomes k` the settled result of the `(k+1)`-th transport attempt.
Returns the loop's result together with the number of attempts issued.
Structural fuel is `retryAttempts + 1 - attempt`, the exact number of
attempts the loop can still make. -/
def fetchLoop (outcomes : Nat → Except MendError (Option JsonObj))
    (retryAttempts : Nat) : Nat → Nat → Except MendError (Option JsonObj) × Nat
  | 0, attempt => (outcomes attempt, attempt + 1)
  | fuel + 1, attempt =>
    match outcomes attempt with
    | .ok v => (.ok v, attempt + 1)
    | .error e =>
      if retryAttempts ≤ attempt then (.error e, attempt + 1)
      else fetchLoop outcomes retryAttempts fuel (attempt + 1)

/-- Retry wrapper `fetchWithRetry` (index.ts lines 519-551): attempt, and on failure retry
while `attempt < retryAttempts`, else propagate. -/
def fetchWithRetry (retryAttempts : Nat)
    (outcomes : Nat → Except MendError (Option JsonObj)) :
    Except MendError (Option JsonObj) × Nat :=
  fetchLoop outcomes retryAttempts (retryAttempts + 1) 0

/-- Nested form of `MendSdk.request` (index.ts lines 579-602) as reached from *inside* the
authentication flow (`switchOrg` / `listOrgs` called by `completeLogin`).
The auth mutex is held by the enclosing `ensureAuth`, so any path through
this call that needs `ensureAuth`'s slow path re-enters the held mutex and
never settles (`stuck`): both the initial `ensureAuth` when the token is
not valid, and the 401-recovery branch (which clears the jwt and calls
`ensureAuth` again). -/
def requestNested (st : State) (now : Nat) (call : NetCall)
    (outcomes : Nat → Except MendError (Option JsonObj)) :
    FlowRes (Option JsonObj) × State × List NetCall :=
  if tokenValid st now then
    match fetchWithRetry st.retryAttempts outcomes with
    | (.ok v, n) => (.ok v, st, List.replicate n call)
    | (.error e, n) =>
      if e.status == some 401 then
        (.stuck, { st with jwt := none, jwtExpiresAt := 0 },
          List.replicate n call)
      else (.err e, st, List.replicate n call)
  else (.stuck, st, [])

/-- Field read `orgs.payload.orgs` from the `listOrgs` response
(index.ts line 488). -/
def listOrgsPayload : Option JsonObj → Option (List Nat)
  | none => none
  | some o => o.payloadOrgs

/-- Login completion `completeLogin` (index.ts lines 469-494): require a truthy token; store
the jwt with expiry `Date.now() + tokenTTL * 60_000`; cache `payload.orgs`
when the response carries an array of orgs; then, with a configured `orgId`,
switch to it via `switchOrg` (a nested `request` issuing
`PUT /session/org/{orgId}`, then recording `activeOrgId`); without one,
fetch `GET /org` only when no organization list is cached.  The current
revision does not auto-select a sole available organization. -/
def completeLogin (srv : Server) (now : Nat) (st : State) (res : JsonObj) :
    FlowRes Unit × State × List NetCall :=
  if !(strTruthy res.token) then (.err authMissingTokenError, st, [])
  else
    let st₁ := { st with jwt := res.token,
                         jwtExpiresAt := now + st.tokenTTL * 60000 }
    let st₂ :=
      match res.payloadOrgs with
      | some orgs => { st₁ with availableOrgs := some orgs }
      | none => st₁
    match st₂.orgId with
    | some oid =>
      match requestNested st₂ now (.putSessionOrg oid) srv.orgSwitch with
      | (.ok _, st₃, tr) => (.ok (), { st₃ with activeOrgId := some oid }, tr)
      | (.err e, st₃, tr) => (.err e, st₃, tr)
      | (.jsExn m, st₃, tr) => (.jsExn m, st₃, tr)
      | (.stuck, st₃, tr) => (.stuck, st₃, tr)
    | none =>
      match st₂.availableOrgs with
      | none =>
        match requestNested st₂ now .getOrgList srv.orgList with
        | (.ok v, st₃, tr) =>
          (.ok (), { st₃ with availableOrgs := listOrgsPayload v }, tr)
        | (.err e, st₃, tr) => (.err e, st₃, tr)
        | (.jsExn m, st₃, tr) => (.jsExn m, st₃, tr)
        | (.stuck, st₃, tr) => (.stuck, st₃, tr)
      | some _ => (.ok (), st₂, [])

/-- MFA submission `submitMfaCode` (index.ts lines 896-911): PUT `/session/mfa` with the
code (bypassing `ensureAuth`); a transport rejection propagates unchanged
in this revision; on success flow into `completeLogin`, and only after it
resolves clear the pending `mfaCode`. -/
def submitMfaCode (srv : Server) (now : Nat) (st : State) (code : String) :
    FlowRes Unit × State × List NetCall :=
  match srv.mfa with
  | .error e => (.err e, st, [.putSessionMfa code])
  | .ok none =>
    (.jsExn "TypeError: res is undefined", st, [.putSessionMfa code])
  | .ok (some res) =>
    match completeLogin srv now st res with
    | (.ok _, st₂, tr) =>
      (.ok (), { st₂ with mfaCode := none }, .putSessionMfa code :: tr)
    | (.err e, st₂, tr) => (.err e, st₂, .putSessionMfa code :: tr)
    | (.jsExn m, st₂, tr) => (.jsExn m, st₂, .putSessionMfa code :: tr)
    | (.stuck, st₂, tr) => (.stuck, st₂, .putSessionMfa code :: tr)

/-- Login call `authenticate` (index.ts lines 443-467): POST `/session`; in this
revision a transport rejection propagates *unchanged* (the previous
revision's catch that re-classified a 401 with an MFA-flavoured body as
`AUTH_MFA_REQUIRED` is gone).  On a response with a truthy token, complete
the login; otherwise, with a pending `mfaCode` (any value other than
`undefined`), submit it; otherwise fail with `AUTH_MISSING_TOKEN`. -/
def authenticate (srv : Server) (now : Nat) (st : State) :
    FlowRes Unit × State × List NetCall :=
  match srv.session with
  | .error e => (.err e, st, [.postSession])
  | .ok none => (.jsExn "TypeError: res is undefined", st, [.postSession])
  | .ok (some res) =>
    if strTruthy res.token then
      match completeLogin srv now st res with
      | (r, st₂, tr) => (r, st₂, .postSession :: tr)
    else
      match st.mfaCode with
      | some code =>
        match submitMfaCode srv now st code with
        | (r, st₂, tr) => (r, st₂, .postSession :: tr)
      | none => (.err authMissingTokenError, st, [.postSession])

/-- The double-checked critical section of `ensureAuth` (index.ts lines
502-506): re-check `!this.jwt || Date.now() >= this.jwtExpiresAt` inside
the mutex, and only then authenticate. -/
def ensureAuthCrit (srv : Server) (now : Nat) (st : State) :
    FlowRes Unit × State × List NetCall :=
  if !(tokenValid st now) then authenticate srv now st else (.ok (), st, [])

/-- Credential gate `ensureAuth` (index.ts lines 496-507) for a single caller with the auth
mutex free: the fast path returns without acquiring the lock when the token
is valid; otherwise the lock is acquired and the critical section runs (for
a lone caller the double check reads the same state and clock). -/
def ensureAuth (srv : Server) (now : Nat) (st : State) :
    FlowRes Unit × State × List NetCall :=
  if tokenValid st now then (.ok (), st, []) else ensureAuthCrit srv now st

/-- Top-level `MendSdk.request` (index.ts lines 579-602) (auth mutex
free): `ensureAuth`, then the call through `fetchWithRetry`; if that fails
with HTTP status 401, clear the credential, `ensureAuth` again (forcing a
fresh login) and re-issue the call once, propagating whatever the re-issued
call produces; a non-401 failure propagates immediately.  `outcomes₁` and
`outcomes₂` script the transport attempts of the first and the re-issued
call. -/
def request (srv : Server) (now : Nat) (st : State) (call : NetCall)
    (outcomes₁ outcomes₂ : Nat → Except MendError (Option JsonObj)) :
    FlowRes (Option JsonObj) × State × List NetCall :=
  match ensureAuth srv now st with
  | (.ok _, st₁, tr₀) =>
    match fetchWithRetry st₁.retryAttempts outcomes₁ with
    | (.ok v, n) => (.ok v, st₁, tr₀ ++ List.replicate n call)
    | (.error e, n) =>
      let tr₁ := tr₀ ++ List.replicate n call
      if e.status == some 401 then
        let st₂ := { st₁ with jwt := none, jwtExpiresAt := 0 }
        match ensureAuth srv now st₂ with
        | (.ok _, st₃, tr₂) =>
          match fetchWithRetry st₃.retryAttempts outcomes₂ with
          | (.ok v, m) => (.ok v, st₃, tr₁ ++ tr₂ ++ List.replicate m call)
          | (.error e₂, m) =>
            (.err e₂, st₃, tr₁ ++ tr₂ ++ List.replicate m call)
        | (.err e₂, st₃, tr₂) => (.err e₂, st₃, tr₁ ++ tr₂)
        | (.jsExn msg, st₃, tr₂) => (.jsExn msg, st₃, tr₁ ++ tr₂)
        | (.stuck, st₃, tr₂) => (.stuck, st₃, tr₁ ++ tr₂)
      else (.err e, st₁, tr₁)
  | (.err e, st₁, tr₀) => (.err e, st₁, tr₀)
  | (.jsExn msg, st₁, tr₀) => (.jsExn msg, st₁, tr₀)
  | (.stuck, st₁, tr₀) => (.stuck, st₁, tr₀)

/-- Session clearing `logout` (index.ts lines 948-951): clear the two credential fields,
nothing else, with no network call. -/
def logout (st : State) : State × List NetCall :=
  ({ st with jwt := none, jwtExpiresAt := 0 }, [])

/-- N concurrent `ensureAuth` callers that all missed the fast path and
queued on the auth mutex: the mutex serializes their critical sections in
FIFO order (see the `Mutex` model below), so the run is the in-order
execution of `ensureAuthCrit` over the shared state, caller `k` observing
`Date.now() = ts.get k`. -/
def ensureAuthSerial (srv : Server) : State → List Nat → State × List NetCall
  | st, [] => (st, [])
  | st, t :: ts =>
    match ensureAuthCrit srv t st with
    | (_, st₂, tr) =>
      match ensureAuthSerial srv st₂ ts with
      | (stf, trs) => (stf, tr ++ trs)

end MendSdk

/- ----------------------------------------------------------------------------
 - Mutex (mutex.ts)
 - -------------------------------------------------------------------------- -/

namespace Mutex

/-- A queued critical section: how long it runs once started, and what the
function passed to `lock` settles with (`Except.error` = the section
throws). -/
structure SecSpec (α ε : Type) where
  dur : Nat
  res : Except ε α
deriving DecidableEq

/-- The observed execution of one critical section: when it started, when
its `finally { unlock() }` fired, and what the `lock` call settled with. -/
structure SecExec (α ε : Type) where
  startT : Nat
  endT : Nat
  res : Except ε α
deriving DecidableEq

/-- Promise chaining in `Mutex.lock` (mutex.ts lines 71-93): it chains every caller after the
previous caller's release: `this.mutex = this.mutex.then(() => acquireLock)`
queues the sections in the order `lock` was called, `await oldMutex` starts
a section exactly when the chain is free, and the guaranteed
`finally { unlock() }` frees the chain at `start + dur` whether `fn`
resolved or rejected, with `lock` settling with `fn`'s own outcome. -/
def runFrom (t : Nat) : List (SecSpec α ε) → List (SecExec α ε)
  | [] => []
  | s :: rest =>
    { startT := t, endT := t + s.dur, res := s.res } :: runFrom (t + s.dur) rest

/-- The full execution of a queue of `lock` calls on one `Mutex`, chain
initially free (`this.mutex = Promise.resolve()`). -/
def run (ss : List (SecSpec α ε)) : List (SecExec α ε) := runFrom 0 ss

end Mutex

/- ----------------------------------------------------------------------------
 - Concrete fixtures used by witnesses and counterexample evaluations
 - -------------------------------------------------------------------------- -/

/-- A state as produced by a successful construction with only the three
mandatory options. -/
def stBase : MendSdk.State :=
  { orgId := none, mfaCode := none, tokenTTL := 55, requestTimeout := 30000,
    retryAttempts := 0, retryBackoff := 100, activeOrgId := none,
    availableOrgs := none, jwt := none, jwtExpiresAt := 0 }

/-- The 401 body the repository's own `error-handling` test serves from
`POST /session`: a message that indicates MFA but no structured `code`
field. -/
def mfaBody : JsonObj := { message := some "MFA required" }

/-- Response of `POST /session` answering 401 with `mfaBody`. -/
def mfaResp401 : HttpResp :=
  { ok := false, status := 401, statusText := "Unauthorized",
    body := .json mfaBody }

/-- The `MendError` the transport layer builds for `mfaResp401`. -/
def mfaErr : MendError := HttpClient.errorResult mfaResp401

/-- A server whose login endpoint rejects with `mfaErr`. -/
def srvMfa401 : MendSdk.Server :=
  { session := .error mfaErr, mfa := .ok none,
    orgSwitch := fun _ => .ok none, orgList := fun _ => .ok none }

/-- A benign server: login succeeds with a token, other endpoints resolve. -/
def srvBenign : MendSdk.Server :=
  { session := .ok (some { token := some "tok" }), mfa := .ok none,
    orgSwitch := fun _ => .ok (some {}), orgList := fun _ => .ok (some {}) }

/-- An authenticated state with a cached organization list. -/
def stC10 : MendSdk.State :=
  { stBase with availableOrgs := some [7], activeOrgId := some 7,
                jwt := some "t", jwtExpiresAt := 5 }

/-- A login response carrying only a token. -/
def resTok : JsonObj := { token := some "tok2" }

/-- Options carrying only the three mandatory fields. -/
def opts0 : MendSdk.Options :=
  { apiEndpoint := some "https://a", email := some "e", password := some "p" }

/-- The state after `completeLogin srvBenign 5 stC10 resTok`. -/
def stC7 : MendSdk.State :=
  { stBase with availableOrgs := some [7], activeOrgId := some 7,
                jwt := some "tok2", jwtExpiresAt := 5 + 55 * 60000 }

/-- Options carrying the three mandatory fields plus an MFA code. -/
def optsMfa : MendSdk.Options :=
  { apiEndpoint := some "https://a", email := some "e", password := some "p",
    mfaCode := some "123456" }

/-- The state constructed from `optsMfa`: a pending MFA code, no credential,
no cached organization list. -/
def stMfa : MendSdk.State := { stBase with mfaCode := some "123456" }

/-- A server whose `/session` returns no token and whose `/session/mfa`
completes the login. -/
def srvMfa : MendSdk.Server :=
  { session := .ok (some {}),
    mfa := .ok (some { token := some "mfa-token", payloadOrgs := some [123] }),
    orgSwitch := fun _ => .ok none, orgList := fun _ => .ok none }

/-- A fresh state constructed with `orgId = 123` (spec §8, scenario 1). -/
def stOrg : MendSdk.State := { stBase with orgId := some 123 }

/-- A server for the org-switch scenario: login succeeds with a token and an
org list, and the org switch resolves. -/
def srvOrg : MendSdk.Server :=
  { session := .ok (some { token := some "t", payloadOrgs := some [123] }),
    mfa := .ok none, orgSwitch := fun _ => .ok (some {}),
    orgList := fun _ => .ok (some {}) }

/-- A transport rejection with HTTP status 401. -/
def err401 : MendError :=
  { message := "HTTP 401 – Unauthorized", code := .HTTP_ERROR,
    status := some 401 }

/-- A transport rejection with HTTP status 500. -/
def err500 : MendError :=
  { message := "HTTP 500 – Server Error", code := .HTTP_ERROR,
    status := some 500 }

/-- Three queued critical sections with durations 30, 10, 20, the middle one
throwing (spec §8, P4). -/
def mutexDemo : List (Mutex.SecSpec Nat String) :=
  [{ dur := 30, res := .ok 0 }, { dur := 10, res := .error "boom" },
   { dur := 20, res := .ok 2 }]

/- ----------------------------------------------------------------------------
 - Claim theorems
 - -------------------------------------------------------------------------- -/

/-- C4: for a 2xx response, `HttpClient.fetch` resolves to `undefined` on an
empty body without attempting a JSON parse — that half of the claim holds —
but on a non-empty body that is not valid JSON the call rejects with the raw
`SyntaxError` escaping `JSON.parse` (http.ts line 134 has no try/catch on
the success path), NOT with a `MendError` of category `HTTP_ERROR` as the
claim, the spec (§4.2) and the repository's own http test ("should wrap
JSON parse errors in MendError") require. -/
theorem c4_parse_failure_unwrapped :
    HttpClient.fetchResp
        { ok := true, status := 200, statusText := "OK",
          body := .invalid "not-json" }
      = .jsException "SyntaxError: Unexpected token in JSON"
  ∧ HttpClient.fetchResp
        { ok := true, status := 204, statusText := "No Content", body := .empty }
      = .success none := by
  exact ⟨by decide, by decide⟩

/-- C5: in the current revision, `authenticate` (index.ts lines 443-467) has
no catch block: when `POST /session` fails with an HTTP 401 whose body reads
`{"message":"MFA required"}` — the exact response the repository's own
`error-handling` test serves, expecting `AUTH_MFA_REQUIRED` — the transport
error surfaces to the caller with the generic category `HTTP_ERROR`.  The
previous revision (index.ts lines 91-102) re-classified it; the current code
contradicts its own test suite and the spec (§4.3). -/
theorem c5_mfa_not_reclassified :
    HttpClient.fetchResp mfaResp401 = .mendError mfaErr
  ∧ mfaErr = { message := "MFA required", code := .HTTP_ERROR,
               status := some 401, details := some (.parsed mfaBody) }
  ∧ MendSdk.authenticate srvMfa401 1000 stBase
      = (.err mfaErr, stBase, [.postSession])
  ∧ mfaErr.code ≠ ErrorCode.AUTH_MFA_REQUIRED := by
  refine ⟨by decide, by decide, ?_, by decide⟩
  decide

/-- C9: constructing with a missing (`undefined`) or empty `apiEndpoint`,
`email` or `password` fails synchronously with a `MendError` of code
`SDK_CONFIG` (index.ts lines 416-418).  The embedded constructor is a pure
function producing no `NetCall`, so no network activity is possible before
or after the throw. -/
theorem c9_ctor_validation (opts : MendSdk.Options)
    (h : strTruthy opts.apiEndpoint = false ∨ strTruthy opts.email = false
        ∨ strTruthy opts.password = false) :
    MendSdk.init opts
      = .error { message := "apiEndpoint, email and password are required",
                 code := .SDK_CONFIG } := by
  unfold MendSdk.init
  rcases h with h | h | h <;> simp [h]

theorem c9_ctor_validation_witness :
    strTruthy (MendSdk.Options.email { apiEndpoint := some "https://a", email := some "", password := some "p" }) = false
  ∧ MendSdk.init { apiEndpoint := some "https://a", email := some "", password := some "p" }
      = .error { message := "apiEndpoint, email and password are required",
                 code := .SDK_CONFIG } := by
  refine ⟨by decide, ?_⟩
  exact c9_ctor_validation _ (Or.inr (Or.inl (by decide)))

/-- C10: `logout` (index.ts lines 948-951) rewrites exactly the two
credential fields — `jwt := null`, `jwtExpiresAt := 0` — with an empty
network trace, leaving `activeOrgId`, `availableOrgs`, the pending
`mfaCode` and all configuration fields unchanged (spelled out by the full
record on the right); consequently a later `completeLogin` on the
logged-out instance, with no configured `orgId` and the organization list
still cached, issues no network call at all — in particular no `GET /org`
listing. -/
theorem c10_logout_frame (st : MendSdk.State) (srv : MendSdk.Server)
    (now : Nat) (res : JsonObj) (l : List Nat)
    (horg : st.orgId = none) (hcache : st.availableOrgs = some l)
    (htok : strTruthy res.token = true) :
    MendSdk.logout st
      = ({ orgId := st.orgId, mfaCode := st.mfaCode, tokenTTL := st.tokenTTL,
           requestTimeout := st.requestTimeout,
           retryAttempts := st.retryAttempts, retryBackoff := st.retryBackoff,
           activeOrgId := st.activeOrgId, availableOrgs := st.availableOrgs,
           jwt := none, jwtExpiresAt := 0 }, [])
  ∧ (MendSdk.completeLogin srv now (MendSdk.logout st).1 res).2.2 = [] := by
  constructor
  · rfl
  · unfold MendSdk.logout MendSdk.completeLogin
    cases hpo : res.payloadOrgs <;> simp [htok, horg, hcache, hpo]

theorem c10_logout_frame_witness :
    MendSdk.logout stC10
      = ({ orgId := stC10.orgId, mfaCode := stC10.mfaCode,
           tokenTTL := stC10.tokenTTL, requestTimeout := stC10.requestTimeout,
           retryAttempts := stC10.retryAttempts,
           retryBackoff := stC10.retryBackoff,
           activeOrgId := stC10.activeOrgId,
           availableOrgs := stC10.availableOrgs,
           jwt := none, jwtExpiresAt := 0 }, [])
  ∧ (MendSdk.completeLogin srvBenign 3 (MendSdk.logout stC10).1 resTok).2.2
      = [] :=
  c10_logout_frame stC10 srvBenign 3 resTok [7] (by decide) (by decide)
    (by decide)

theorem mutex_runFrom_map_res {α ε : Type} (t : Nat)
    (ss : List (Mutex.SecSpec α ε)) :
    (Mutex.runFrom t ss).map Mutex.SecExec.res = ss.map Mutex.SecSpec.res := by
  induction ss generalizing t with
  | nil => rfl
  | cons s rest ih => simp [Mutex.runFrom, ih]

theorem mutex_runFrom_start_ge {α ε : Type} (t : Nat)
    (ss : List (Mutex.SecSpec α ε)) :
    ∀ e ∈ Mutex.runFrom t ss, t ≤ e.startT := by
  induction ss generalizing t with
  | nil => intro e he; simp [Mutex.runFrom] at he
  | cons s rest ih =>
    intro e he
    simp only [Mutex.runFrom, List.mem_cons] at he
    rcases he with rfl | he
    · exact Nat.le_refl t
    · exact Nat.le_trans (Nat.le_add_right t s.dur) (ih (t + s.dur) e he)

theorem mutex_runFrom_pairwise {α ε : Type} (t : Nat)
    (ss : List (Mutex.SecSpec α ε)) :
    List.Pairwise (fun a b => a.endT ≤ b.startT) (Mutex.runFrom t ss) := by
  induction ss generalizing t with
  | nil => exact List.Pairwise.nil
  | cons s rest ih =>
    refine List.Pairwise.cons (fun b hb => ?_) (ih (t + s.dur))
    exact mutex_runFrom_start_ge (t + s.dur) rest b hb

theorem mutex_runFrom_chain {α ε : Type} (t : Nat)
    (ss : List (Mutex.SecSpec α ε)) :
    List.Chain' (fun a b => b.startT = a.endT) (Mutex.runFrom t ss) := by
  induction ss generalizing t with
  | nil => simp [Mutex.runFrom]
  | cons s rest ih =>
    cases rest with
    | nil => simp [Mutex.runFrom]
    | cons s₂ r₂ =>
      rw [Mutex.runFrom, Mutex.runFrom, List.chain'_cons]
      have h := ih (t + s.dur)
      rw [Mutex.runFrom] at h
      exact ⟨rfl, h⟩

/-- C3: for any queue of `lock` calls on one `Mutex`: (1) each `lock` call
settles with exactly what its critical section settles with, rejections
included; (2) the critical sections are mutually exclusive and run in the
order the `lock` calls were issued — in issue order, every earlier section
has released before any later one starts, however long each section takes;
(3) each queued section starts exactly when its predecessor's
`finally { unlock() }` fired, so a throwing section still releases the lock
and the next queued section runs. -/
theorem c3_mutex_fifo {α ε : Type} (ss : List (Mutex.SecSpec α ε)) :
    (Mutex.run ss).map Mutex.SecExec.res = ss.map Mutex.SecSpec.res
  ∧ List.Pairwise (fun a b => a.endT ≤ b.startT) (Mutex.run ss)
  ∧ List.Chain' (fun a b => b.startT = a.endT) (Mutex.run ss) :=
  ⟨mutex_runFrom_map_res 0 ss, mutex_runFrom_pairwise 0 ss,
   mutex_runFrom_chain 0 ss⟩

theorem c3_mutex_fifo_witness :
    Mutex.run mutexDemo
      = [{ startT := 0, endT := 30, res := .ok 0 },
         { startT := 30, endT := 40, res := .error "boom" },
         { startT := 40, endT := 60, res := .ok 2 }]
  ∧ ((Mutex.run mutexDemo).map Mutex.SecExec.res
        = mutexDemo.map Mutex.SecSpec.res
    ∧ List.Pairwise (fun a b => a.endT ≤ b.startT) (Mutex.run mutexDemo)
    ∧ List.Chain' (fun a b => b.startT = a.endT) (Mutex.run mutexDemo)) :=
  ⟨by decide, c3_mutex_fifo mutexDemo⟩

theorem requestNested_ok_frame (st : MendSdk.State) (now : Nat)
    (call : MendSdk.NetCall) (outs : Nat → Except MendError (Option JsonObj))
    (v : Option JsonObj) (st₃ : MendSdk.State) (tr : List MendSdk.NetCall)
    (h : MendSdk.requestNested st now call outs = (.ok v, st₃, tr)) :
    st₃ = st := by
  unfold MendSdk.requestNested at h
  by_cases hv : MendSdk.tokenValid st now = true
  · rw [if_pos hv] at h
    rcases hfr : MendSdk.fetchWithRetry st.retryAttempts outs with ⟨r, n⟩
    rw [hfr] at h
    cases r with
    | ok w =>
      simp only [Prod.mk.injEq] at h
      exact h.2.1.symm
    | error e =>
      by_cases hs : (e.status == some 401) = true <;> simp [hs] at h
  · rw [if_neg hv] at h
    simp at h

theorem fetchWithRetry_zero (outs : Nat → Except MendError (Option JsonObj)) :
    MendSdk.fetchWithRetry 0 outs = (outs 0, 1) := by
  unfold MendSdk.fetchWithRetry MendSdk.fetchLoop
  cases h : outs 0 <;> simp [h]

theorem requestNested_ok_eq (st : MendSdk.State) (now : Nat)
    (call : MendSdk.NetCall) (outs : Nat → Except MendError (Option JsonObj))
    (w : Option JsonObj)
    (hv : MendSdk.tokenValid st now = true) (hr : st.retryAttempts = 0)
    (ho : outs 0 = .ok w) :
    MendSdk.requestNested st now call outs = (.ok w, st, [call]) := by
  unfold MendSdk.requestNested
  rw [if_pos hv, hr, fetchWithRetry_zero, ho]
  rfl

theorem completeLogin_cached (srv : MendSdk.Server) (now : Nat)
    (st : MendSdk.State) (res : JsonObj) (l : List Nat)
    (htok : strTruthy res.token = true) (horg : st.orgId = none)
    (hcache : st.availableOrgs = some l) :
    MendSdk.completeLogin srv now st res
      = (.ok (), { st with jwt := res.token,
                           jwtExpiresAt := now + st.tokenTTL * 60000,
                           availableOrgs := some (res.payloadOrgs.getD l) },
         []) := by
  unfold MendSdk.completeLogin
  cases st
  cases hpo : res.payloadOrgs <;> simp_all

theorem completeLogin_payload_orgs (srv : MendSdk.Server) (now : Nat)
    (st : MendSdk.State) (res : JsonObj) (orgs : List Nat)
    (htok : strTruthy res.token = true) (horg : st.orgId = none)
    (hpo : res.payloadOrgs = some orgs) :
    MendSdk.completeLogin srv now st res
      = (.ok (), { st with jwt := res.token,
                           jwtExpiresAt := now + st.tokenTTL * 60000,
                           availableOrgs := some orgs },
         []) := by
  unfold MendSdk.completeLogin
  cases st
  simp_all

theorem completeLogin_org_switch (srv : MendSdk.Server) (now : Nat)
    (st : MendSdk.State) (res : JsonObj) (oid : Nat) (w : Option JsonObj)
    (htok : strTruthy res.token = true) (horg : st.orgId = some oid)
    (httl : 0 < st.tokenTTL) (hretry : st.retryAttempts = 0)
    (hsw : srv.orgSwitch 0 = .ok w) :
    MendSdk.completeLogin srv now st res
      = (.ok (),
         { st with jwt := res.token,
                   jwtExpiresAt := now + st.tokenTTL * 60000,
                   availableOrgs :=
                     (match res.payloadOrgs with
                      | some orgs => some orgs
                      | none => st.availableOrgs),
                   activeOrgId := some oid },
         [.putSessionOrg oid]) := by
  have h60 : now < now + st.tokenTTL * 60000 :=
    Nat.lt_add_of_pos_right (Nat.mul_pos httl (by norm_num))
  unfold MendSdk.completeLogin
  cases hpo : res.payloadOrgs with
  | none =>
    simp only [htok, hpo, horg]
    rw [requestNested_ok_eq _ _ _ _ w ?va ?ra hsw]
    · simp
    case va => simp [MendSdk.tokenValid, htok, h60]
    case ra => simp [hretry]
  | some orgs =>
    simp only [htok, hpo, horg]
    rw [requestNested_ok_eq _ _ _ _ w ?vb ?rb hsw]
    · simp
    case vb => simp [MendSdk.tokenValid, htok, h60]
    case rb => simp [hretry]

theorem authenticate_eq_of (srv : MendSdk.Server) (now : Nat)
    (st : MendSdk.State) (res : JsonObj) (r : MendSdk.FlowRes Unit)
    (st₂ : MendSdk.State) (tr : List MendSdk.NetCall)
    (hsess : srv.session = .ok (some res)) (htok : strTruthy res.token = true)
    (hcl : MendSdk.completeLogin srv now st res = (r, st₂, tr)) :
    MendSdk.authenticate srv now st = (r, st₂, .postSession :: tr) := by
  unfold MendSdk.authenticate
  rw [hsess]
  simp [htok, hcl]

theorem ensureAuth_valid_eq (srv : MendSdk.Server) (now : Nat)
    (st : MendSdk.State) (hv : MendSdk.tokenValid st now = true) :
    MendSdk.ensureAuth srv now st = (.ok (), st, []) := by
  unfold MendSdk.ensureAuth
  simp [hv]

theorem ensureAuth_expired_eq (srv : MendSdk.Server) (now : Nat)
    (st : MendSdk.State) (hv : MendSdk.tokenValid st now = false) :
    MendSdk.ensureAuth srv now st = MendSdk.authenticate srv now st := by
  unfold MendSdk.ensureAuth MendSdk.ensureAuthCrit
  simp [hv]

theorem completeLogin_ok_credential (srv : MendSdk.Server) (now : Nat)
    (st : MendSdk.State) (res : JsonObj) (st₂ : MendSdk.State)
    (tr : List MendSdk.NetCall)
    (hcl : MendSdk.completeLogin srv now st res = (.ok (), st₂, tr)) :
    st₂.jwtExpiresAt = now + st.tokenTTL * 60000 ∧ st₂.jwt = res.token := by
  unfold MendSdk.completeLogin at hcl
  by_cases htok : strTruthy res.token = true
  · simp only [htok, Bool.not_true] at hcl
    rw [if_neg (by simp)] at hcl
    cases hpo : res.payloadOrgs with
    | none =>
      rw [hpo] at hcl
      cases ho : st.orgId with
      | some oid =>
        simp only [ho] at hcl
        split at hcl
        case _ v st₃ tr₂ heq =>
          have hst := requestNested_ok_frame _ _ _ _ _ _ _ heq
          simp only [Prod.mk.injEq] at hcl
          obtain ⟨-, h2, -⟩ := hcl
          subst h2
          rw [hst]
          constructor <;> rfl
        case _ => simp at hcl
        case _ => simp at hcl
        case _ => simp at hcl
      | none =>
        simp only [ho] at hcl
        cases hav : st.availableOrgs with
        | none =>
          simp only [hav] at hcl
          split at hcl
          case _ v st₃ tr₂ heq =>
            have hst := requestNested_ok_frame _ _ _ _ _ _ _ heq
            simp only [Prod.mk.injEq] at hcl
            obtain ⟨-, h2, -⟩ := hcl
            subst h2
            rw [hst]
            constructor <;> rfl
          case _ => simp at hcl
          case _ => simp at hcl
          case _ => simp at hcl
        | some l =>
          simp only [hav] at hcl
          simp only [Prod.mk.injEq] at hcl
          obtain ⟨-, h2, -⟩ := hcl
          subst h2
          constructor <;> rfl
    | some orgs =>
      rw [hpo] at hcl
      cases ho : st.orgId with
      | some oid =>
        simp only [ho] at hcl
        split at hcl
        case _ v st₃ tr₂ heq =>
          have hst := requestNested_ok_frame _ _ _ _ _ _ _ heq
          simp only [Prod.mk.injEq] at hcl
          obtain ⟨-, h2, -⟩ := hcl
          subst h2
          rw [hst]
          constructor <;> rfl
        case _ => simp at hcl
        case _ => simp at hcl
        case _ => simp at hcl
      | none =>
        simp only [ho] at hcl
        simp only [Prod.mk.injEq] at hcl
        obtain ⟨-, h2, -⟩ := hcl
        subst h2
        constructor <;> rfl
  · simp only [htok] at hcl
    simp at hcl

/-- C7: the credential-expiry policy.  (1) Every successful `completeLogin`
stores `jwtExpiresAt = Date.now() + tokenTTL * 60_000` together with the
response's token (index.ts lines 475-476); (2) `tokenTTL` defaults to 55
minutes when not configured (line 433); (3) a `request` made while
`Date.now() < jwtExpiresAt` with a stored token reuses the credential — the
state is untouched and the trace holds no `POST /session`; (4) a `request`
made at or after the expiry instant triggers exactly one new login: its
trace is `[POST /session, call]`. -/
theorem c7_expiry_policy :
    (∀ (srv : MendSdk.Server) (now : Nat) (st st₂ : MendSdk.State)
        (res : JsonObj) (tr : List MendSdk.NetCall),
        MendSdk.completeLogin srv now st res = (.ok (), st₂, tr) →
        st₂.jwtExpiresAt = now + st.tokenTTL * 60000 ∧ st₂.jwt = res.token)
  ∧ (∀ (opts : MendSdk.Options) (st : MendSdk.State), opts.tokenTTL = none →
        MendSdk.init opts = .ok st →
        st.tokenTTL = MendSdk.DEFAULT_TOKEN_TTL_MINUTES)
  ∧ (∀ (srv : MendSdk.Server) (now : Nat) (st : MendSdk.State)
        (call : MendSdk.NetCall)
        (o₁ o₂ : Nat → Except MendError (Option JsonObj)) (v : Option JsonObj),
        MendSdk.tokenValid st now = true → st.retryAttempts = 0 →
        o₁ 0 = .ok v →
        MendSdk.request srv now st call o₁ o₂ = (.ok v, st, [call]))
  ∧ (∀ (srv : MendSdk.Server) (now : Nat) (st : MendSdk.State)
        (res : JsonObj) (l : List Nat) (call : MendSdk.NetCall)
        (o₁ o₂ : Nat → Except MendError (Option JsonObj)) (v : Option JsonObj),
        MendSdk.tokenValid st now = false →
        srv.session = .ok (some res) → strTruthy res.token = true →
        st.orgId = none → st.availableOrgs = some l → st.retryAttempts = 0 →
        o₁ 0 = .ok v →
        (MendSdk.request srv now st call o₁ o₂).2.2 = [.postSession, call]) := by
  refine ⟨?_, ?_, ?_, ?_⟩
  · intro srv now st st₂ res tr hcl
    exact completeLogin_ok_credential srv now st res st₂ tr hcl
  · intro opts st h hinit
    unfold MendSdk.init at hinit
    split at hinit
    · simp at hinit
    · split at hinit
      · simp at hinit
      · rw [Except.ok.injEq] at hinit
        subst hinit
        simp [h]
  · intro srv now st call o₁ o₂ v hv hr ho
    unfold MendSdk.request
    rw [ensureAuth_valid_eq srv now st hv]
    simp only [hr, fetchWithRetry_zero, ho]
    simp
  · intro srv now st res l call o₁ o₂ v hv hsess htok horg hcache hr ho
    have hcl := completeLogin_cached srv now st res l htok horg hcache
    have hau := authenticate_eq_of srv now st res _ _ _ hsess htok hcl
    unfold MendSdk.request
    rw [ensureAuth_expired_eq srv now st hv, hau]
    simp only [hr, fetchWithRetry_zero, ho]
    simp

theorem c7_expiry_policy_witness :
    (stC7.jwtExpiresAt = 5 + stC10.tokenTTL * 60000 ∧ stC7.jwt = resTok.token)
  ∧ stBase.tokenTTL = MendSdk.DEFAULT_TOKEN_TTL_MINUTES
  ∧ MendSdk.request srvBenign 3 stC10 (.resource "GET" "/user/1")
      (fun _ => .ok (some {})) (fun _ => .ok none)
      = (.ok (some {}), stC10, [.resource "GET" "/user/1"])
  ∧ (MendSdk.request srvBenign 10 stC10 (.resource "GET" "/user/1")
      (fun _ => .ok (some {})) (fun _ => .ok none)).2.2
      = [.postSession, .resource "GET" "/user/1"] := by
  refine ⟨c7_expiry_policy.1 srvBenign 5 stC10 stC7 resTok [] (by decide),
          c7_expiry_policy.2.1 opts0 stBase (by decide) (by decide),
          c7_expiry_policy.2.2.1 srvBenign 3 stC10 (.resource "GET" "/user/1")
            (fun _ => .ok (some {})) (fun _ => .ok none) (some {})
            (by decide) (by decide) (by decide),
          c7_expiry_policy.2.2.2 srvBenign 10 stC10 { token := some "tok" } [7]
            (.resource "GET" "/user/1")
            (fun _ => .ok (some {})) (fun _ => .ok none) (some {})
            (by decide) (by decide) (by decide) (by decide) (by decide)
            (by decide) (by decide)⟩

/-- C6: first authentication of an instance constructed with an `mfaCode`.
The hypothesis `init opts = .ok st` with `opts.mfaCode = some code` pins
`st` to the freshly constructed state — pending code, no credential, and
`availableOrgs = none` as the constructor leaves it (index.ts lines
409-413).  When `/session` returns no token, that first `authenticate` run
issues exactly one `POST /session` followed by exactly one
`PUT /session/mfa` with that code, succeeds, and clears the pending code
(index.ts lines 461-463 and 896-911); afterwards the cleared code is never
submitted again — a later `authenticate` whose `/session` response again
carries no token fails with `AUTH_MISSING_TOKEN` after only
`POST /session`, with no `PUT /session/mfa` in its trace.  (The MFA
response enumerates the account's organizations, as in the repository's
auth test, so login completion needs no further call.) -/
theorem c6_mfa_flow (opts : MendSdk.Options) (srv srv₂ : MendSdk.Server)
    (now now₂ : Nat) (st : MendSdk.State) (code : String)
    (res mres res₂ : JsonObj) (l : List Nat)
    (hinit : MendSdk.init opts = .ok st)
    (hmopt : opts.mfaCode = some code) (horgopt : opts.orgId = none)
    (hsess : srv.session = .ok (some res))
    (hnotok : strTruthy res.token = false)
    (hmfa : srv.mfa = .ok (some mres)) (hmtok : strTruthy mres.token = true)
    (hpo : mres.payloadOrgs = some l)
    (hsess₂ : srv₂.session = .ok (some res₂))
    (hnotok₂ : strTruthy res₂.token = false) :
    (MendSdk.authenticate srv now st).2.2
        = [.postSession, .putSessionMfa code]
  ∧ (MendSdk.authenticate srv now st).1 = .ok ()
  ∧ ((MendSdk.authenticate srv now st).2.1).mfaCode = none
  ∧ ((MendSdk.authenticate srv now st).2.1).jwt = mres.token
  ∧ (MendSdk.authenticate srv₂ now₂ (MendSdk.authenticate srv now st).2.1).2.2
        = [.postSession]
  ∧ (MendSdk.authenticate srv₂ now₂ (MendSdk.authenticate srv now st).2.1).1
        = .err MendSdk.authMissingTokenError := by
  have hfields : st.mfaCode = opts.mfaCode ∧ st.orgId = opts.orgId
      ∧ st.availableOrgs = none ∧ st.jwt = none := by
    unfold MendSdk.init at hinit
    split at hinit
    · exact absurd hinit (by simp)
    · split at hinit
      · exact absurd hinit (by simp)
      · rw [Except.ok.injEq] at hinit
        subst hinit
        exact ⟨rfl, rfl, rfl, rfl⟩
  have hm : st.mfaCode = some code := hfields.1.trans hmopt
  have horg : st.orgId = none := hfields.2.1.trans horgopt
  have hcl := completeLogin_payload_orgs srv now st mres l hmtok horg hpo
  have hsub : MendSdk.submitMfaCode srv now st code
      = (.ok (), { st with jwt := mres.token,
                           jwtExpiresAt := now + st.tokenTTL * 60000,
                           availableOrgs := some l,
                           mfaCode := none },
         [.putSessionMfa code]) := by
    unfold MendSdk.submitMfaCode
    rw [hmfa]
    simp [hcl]
  have hA : MendSdk.authenticate srv now st
      = (.ok (), { st with jwt := mres.token,
                           jwtExpiresAt := now + st.tokenTTL * 60000,
                           availableOrgs := some l,
                           mfaCode := none },
         [.postSession, .putSessionMfa code]) := by
    unfold MendSdk.authenticate
    rw [hsess]
    simp [hnotok, hm, hsub]
  have hB : MendSdk.authenticate srv₂ now₂
        { st with jwt := mres.token,
                  jwtExpiresAt := now + st.tokenTTL * 60000,
                  availableOrgs := some l,
                  mfaCode := none }
      = (.err MendSdk.authMissingTokenError,
         { st with jwt := mres.token,
                   jwtExpiresAt := now + st.tokenTTL * 60000,
                   availableOrgs := some l,
                   mfaCode := none },
         [.postSession]) := by
    unfold MendSdk.authenticate
    rw [hsess₂]
    simp [hnotok₂]
  rw [hA]
  refine ⟨rfl, rfl, rfl, rfl, ?_, ?_⟩
  · rw [hB]
  · rw [hB]

theorem c6_mfa_flow_witness :
    MendSdk.init optsMfa = .ok stMfa
  ∧ ((MendSdk.authenticate srvMfa 9 stMfa).2.2
        = [.postSession, .putSessionMfa "123456"]
    ∧ (MendSdk.authenticate srvMfa 9 stMfa).1 = .ok ()
    ∧ ((MendSdk.authenticate srvMfa 9 stMfa).2.1).mfaCode = none
    ∧ ((MendSdk.authenticate srvMfa 9 stMfa).2.1).jwt = some "mfa-token"
    ∧ (MendSdk.authenticate srvMfa 11
          (MendSdk.authenticate srvMfa 9 stMfa).2.1).2.2 = [.postSession]
    ∧ (MendSdk.authenticate srvMfa 11
          (MendSdk.authenticate srvMfa 9 stMfa).2.1).1
        = .err MendSdk.authMissingTokenError) :=
  ⟨by decide,
   c6_mfa_flow optsMfa srvMfa srvMfa 9 11 stMfa "123456" {}
     { token := some "mfa-token", payloadOrgs := some [123] } {} [123]
     (by decide) (by decide) (by decide) (by decide) (by decide) (by decide)
     (by decide) (by decide) (by decide) (by decide)⟩

theorem requestNested_trace (st : MendSdk.State) (now : Nat)
    (call : MendSdk.NetCall) (outs : Nat → Except MendError (Option JsonObj)) :
    ∀ c ∈ (MendSdk.requestNested st now call outs).2.2, c = call := by
  unfold MendSdk.requestNested
  by_cases hv : MendSdk.tokenValid st now = true
  · rw [if_pos hv]
    rcases hfr : MendSdk.fetchWithRetry st.retryAttempts outs with ⟨r, n⟩
    cases r with
    | ok w =>
      dsimp only
      intro c hc
      exact List.eq_of_mem_replicate hc
    | error e =>
      dsimp only
      by_cases hs : (e.status == some 401) = true
      · rw [if_pos hs]
        intro c hc
        exact List.eq_of_mem_replicate hc
      · rw [if_neg hs]
        intro c hc
        exact List.eq_of_mem_replicate hc
  · rw [if_neg hv]
    simp

theorem requestNested_trace₂ (st : MendSdk.State) (now : Nat)
    (call : MendSdk.NetCall) (outs : Nat → Except MendError (Option JsonObj))
    (r : MendSdk.FlowRes (Option JsonObj)) (stR : MendSdk.State)
    (trR : List MendSdk.NetCall)
    (h : MendSdk.requestNested st now call outs = (r, stR, trR)) :
    ∀ c ∈ trR, c = call := by
  intro c hc
  have hall := requestNested_trace st now call outs c
  rw [h] at hall
  exact hall hc

theorem completeLogin_no_orglist (srv : MendSdk.Server) (now : Nat)
    (st : MendSdk.State) (res : JsonObj) (oid : Nat)
    (horg : st.orgId = some oid) :
    MendSdk.NetCall.getOrgList ∉ (MendSdk.completeLogin srv now st res).2.2 := by
  intro hmem
  obtain ⟨oi, mc, ttl, rt, ra, rb, ao, av, jw, je⟩ := st
  simp only at horg
  subst horg
  unfold MendSdk.completeLogin at hmem
  by_cases ht : strTruthy res.token = true
  · rw [if_neg (by simp [ht])] at hmem
    cases hpo : res.payloadOrgs with
    | none =>
      rw [hpo] at hmem
      dsimp only at hmem
      split at hmem
      all_goals
        rename_i heq₂
        exact absurd (requestNested_trace₂ _ _ _ _ _ _ _ heq₂ _ hmem) (by simp)
    | some orgs =>
      rw [hpo] at hmem
      dsimp only at hmem
      split at hmem
      all_goals
        rename_i heq₂
        exact absurd (requestNested_trace₂ _ _ _ _ _ _ _ heq₂ _ hmem) (by simp)
  · rw [if_pos (by simp [ht])] at hmem
    simp at hmem

/-- C8: with an `orgId` supplied at construction, the first resource call on
a fresh instance performs exactly `POST /session` then
`PUT /session/org/{orgId}` then the resource call itself — two network
calls before the resource request, no `GET /org` — returning the resource
payload and recording the active organization (index.ts lines 483-484);
and in general a `completeLogin` on an instance with a configured `orgId`
never issues the `GET /org` organization-listing call. -/
theorem c8_org_preselect (srv : MendSdk.Server) (now : Nat)
    (st : MendSdk.State) (res : JsonObj) (oid : Nat) (w v : Option JsonObj)
    (call : MendSdk.NetCall) (o₁ o₂ : Nat → Except MendError (Option JsonObj))
    (hfresh : st.jwt = none) (horg : st.orgId = some oid)
    (hsess : srv.session = .ok (some res)) (htok : strTruthy res.token = true)
    (httl : 0 < st.tokenTTL) (hretry : st.retryAttempts = 0)
    (hsw : srv.orgSwitch 0 = .ok w) (ho : o₁ 0 = .ok v) :
    (MendSdk.request srv now st call o₁ o₂).2.2
        = [.postSession, .putSessionOrg oid, call]
  ∧ (MendSdk.request srv now st call o₁ o₂).1 = .ok v
  ∧ ((MendSdk.request srv now st call o₁ o₂).2.1).activeOrgId = some oid
  ∧ (∀ (srv₃ : MendSdk.Server) (now₃ : Nat) (st₃ : MendSdk.State)
        (res₃ : JsonObj) (oid₃ : Nat), st₃.orgId = some oid₃ →
      MendSdk.NetCall.getOrgList
        ∉ (MendSdk.completeLogin srv₃ now₃ st₃ res₃).2.2) := by
  have hv : MendSdk.tokenValid st now = false := by
    simp [MendSdk.tokenValid, hfresh, strTruthy]
  have hcl := completeLogin_org_switch srv now st res oid w htok horg httl
    hretry hsw
  have hau := authenticate_eq_of srv now st res _ _ _ hsess htok hcl
  have hreq : MendSdk.request srv now st call o₁ o₂
      = (.ok v,
         { st with jwt := res.token,
                   jwtExpiresAt := now + st.tokenTTL * 60000,
                   availableOrgs :=
                     (match res.payloadOrgs with
                      | some orgs => some orgs
                      | none => st.availableOrgs),
                   activeOrgId := some oid },
         [.postSession, .putSessionOrg oid, call]) := by
    unfold MendSdk.request
    rw [ensureAuth_expired_eq srv now st hv, hau]
    dsimp only
    rw [hretry, fetchWithRetry_zero, ho]
    dsimp only
    simp
  refine ⟨by rw [hreq], by rw [hreq], by rw [hreq], ?_⟩
  intro srv₃ now₃ st₃ res₃ oid₃ ho₃
  exact completeLogin_no_orglist srv₃ now₃ st₃ res₃ oid₃ ho₃

theorem c8_org_preselect_witness :
    (MendSdk.request srvOrg 0 stOrg (.resource "GET" "/user/1")
        (fun _ => .ok (some {})) (fun _ => .ok none)).2.2
      = [.postSession, .putSessionOrg 123, .resource "GET" "/user/1"]
  ∧ (MendSdk.request srvOrg 0 stOrg (.resource "GET" "/user/1")
        (fun _ => .ok (some {})) (fun _ => .ok none)).1 = .ok (some {})
  ∧ ((MendSdk.request srvOrg 0 stOrg (.resource "GET" "/user/1")
        (fun _ => .ok (some {})) (fun _ => .ok none)).2.1).activeOrgId
      = some 123
  ∧ (∀ (srv₃ : MendSdk.Server) (now₃ : Nat) (st₃ : MendSdk.State)
        (res₃ : JsonObj) (oid₃ : Nat), st₃.orgId = some oid₃ →
      MendSdk.NetCall.getOrgList
        ∉ (MendSdk.completeLogin srv₃ now₃ st₃ res₃).2.2) :=
  c8_org_preselect srvOrg 0 stOrg
    { token := some "t", payloadOrgs := some [123] } 123 (some {}) (some {})
    (.resource "GET" "/user/1") (fun _ => .ok (some {})) (fun _ => .ok none)
    (by decide) (by decide) (by decide) (by decide) (by decide) (by decide)
    (by decide) (by decide)

/-- C1: when a `request` made with a valid credential fails with HTTP status
401, the pipeline performs exactly one recovery — it clears the credential,
runs `ensureAuth` again (one fresh `POST /session` login) and re-issues the
original call exactly once, so the trace is `[call, POST /session, call]` —
and the re-issued call's outcome, success or a second 401 or any other
failure, is returned as-is with no further re-authentication or retry
(index.ts lines 591-601); a failure whose status is not 401 propagates
immediately with no recovery: the trace stays `[call]` and the state is
untouched. -/
theorem c1_401_recovery (srv : MendSdk.Server) (now : Nat)
    (st : MendSdk.State) (call : MendSdk.NetCall)
    (o₁ o₂ : Nat → Except MendError (Option JsonObj)) (e₁ : MendError)
    (res : JsonObj) (l : List Nat)
    (hvalid : MendSdk.tokenValid st now = true)
    (hretry : st.retryAttempts = 0)
    (h1 : o₁ 0 = .error e₁)
    (hsess : srv.session = .ok (some res)) (htok : strTruthy res.token = true)
    (horg : st.orgId = none) (hcache : st.availableOrgs = some l) :
    (e₁.status = some 401 →
        (MendSdk.request srv now st call o₁ o₂).2.2
            = [call, .postSession, call]
      ∧ (MendSdk.request srv now st call o₁ o₂).1
          = (match o₂ 0 with
             | .ok v => .ok v
             | .error e₂ => .err e₂))
  ∧ (e₁.status ≠ some 401 →
        MendSdk.request srv now st call o₁ o₂ = (.err e₁, st, [call])) := by
  have horg₂ : ({ st with jwt := none, jwtExpiresAt := 0 } :
      MendSdk.State).orgId = none := horg
  have hcache₂ : ({ st with jwt := none, jwtExpiresAt := 0 } :
      MendSdk.State).availableOrgs = some l := hcache
  have hv₂ : MendSdk.tokenValid
      { st with jwt := none, jwtExpiresAt := 0 } now = false := by
    simp [MendSdk.tokenValid, strTruthy]
  have hcl := completeLogin_cached srv now
    { st with jwt := none, jwtExpiresAt := 0 } res l htok horg₂ hcache₂
  have hau := authenticate_eq_of srv now
    { st with jwt := none, jwtExpiresAt := 0 } res _ _ _ hsess htok hcl
  constructor
  · intro h401
    have heq : MendSdk.request srv now st call o₁ o₂
        = ((match o₂ 0 with
            | .ok v => .ok v
            | .error e₂ => .err e₂),
           { st with jwt := res.token,
                     jwtExpiresAt := now + st.tokenTTL * 60000,
                     availableOrgs := some (res.payloadOrgs.getD l) },
           [call, .postSession, call]) := by
      unfold MendSdk.request
      rw [ensureAuth_valid_eq srv now st hvalid]
      dsimp only
      rw [show MendSdk.fetchWithRetry st.retryAttempts o₁ = (o₁ 0, 1) from by
        rw [hretry, fetchWithRetry_zero], h1]
      dsimp only
      rw [if_pos (by simp [h401])]
      rw [ensureAuth_expired_eq srv now _ hv₂, hau]
      dsimp only
      rw [show MendSdk.fetchWithRetry st.retryAttempts o₂ = (o₂ 0, 1) from by
        rw [hretry, fetchWithRetry_zero]]
      cases ho₂ : o₂ 0 <;> simp
    rw [heq]
    cases ho₂ : o₂ 0 <;> simp
  · intro hne
    unfold MendSdk.request
    rw [ensureAuth_valid_eq srv now st hvalid]
    dsimp only
    rw [show MendSdk.fetchWithRetry st.retryAttempts o₁ = (o₁ 0, 1) from by
      rw [hretry, fetchWithRetry_zero], h1]
    dsimp only
    rw [if_neg (by simp [hne])]
    simp

theorem c1_401_recovery_witness :
    ((MendSdk.request srvBenign 3 stC10 (.resource "GET" "/user/2")
          (fun _ => .error err401) (fun _ => .error err401)).2.2
        = [.resource "GET" "/user/2", .postSession, .resource "GET" "/user/2"]
      ∧ (MendSdk.request srvBenign 3 stC10 (.resource "GET" "/user/2")
          (fun _ => .error err401) (fun _ => .error err401)).1 = .err err401)
  ∧ MendSdk.request srvBenign 3 stC10 (.resource "GET" "/user/2")
        (fun _ => .error err500) (fun _ => .ok none)
      = (.err err500, stC10, [.resource "GET" "/user/2"]) := by
  constructor
  · exact (c1_401_recovery srvBenign 3 stC10 (.resource "GET" "/user/2")
      (fun _ => .error err401) (fun _ => .error err401) err401
      { token := some "tok" } [7] (by decide) (by decide) (by decide)
      (by decide) (by decide) (by decide) (by decide)).1 (by decide)
  · exact (c1_401_recovery srvBenign 3 stC10 (.resource "GET" "/user/2")
      (fun _ => .error err500) (fun _ => .ok none) err500
      { token := some "tok" } [7] (by decide) (by decide) (by decide)
      (by decide) (by decide) (by decide) (by decide)).2 (by decide)

theorem ensureAuthSerial_valid (srv : MendSdk.Server) (st : MendSdk.State)
    (ts : List Nat) (h : ∀ t ∈ ts, MendSdk.tokenValid st t = true) :
    MendSdk.ensureAuthSerial srv st ts = (st, []) := by
  induction ts with
  | nil => rfl
  | cons t ts ih =>
    have hc : MendSdk.ensureAuthCrit srv t st = (.ok (), st, []) := by
      unfold MendSdk.ensureAuthCrit
      rw [h t (List.mem_cons_self t ts)]
      simp
    unfold MendSdk.ensureAuthSerial
    rw [hc]
    dsimp only
    rw [ih (fun x hx => h x (List.mem_cons_of_mem t hx))]
    simp

/-- C2: single-flight authentication under the event-loop model.  N callers
hit `ensureAuth` while the instance holds no usable credential — fresh
(`jwt = null`) or expired (`Date.now() ≥ jwtExpiresAt`), both exactly the
states where `tokenValid` is false at the first caller's clock reading —
so all of them miss the fast path and queue on the auth mutex, which (per
the FIFO `Mutex` model) serializes their critical sections in arrival
order; `ensureAuthSerial` executes exactly that schedule, caller k
re-running the double check at its own `Date.now()` reading.  Provided
every critical section runs before the first login's token expires, the
whole run issues exactly one `POST /session` (and nothing else): the first
caller logs in, every later caller's double check finds the freshly stored
credential and performs no network call, and all callers finish with the
token from that single login.  The last conjunct is the fast path itself:
a caller that finds a valid credential returns at once — state untouched,
no lock, no network call (index.ts line 499). -/
theorem c2_single_flight (srv : MendSdk.Server) (st : MendSdk.State)
    (t₁ : Nat) (rest : List Nat) (res : JsonObj) (l : List Nat)
    (hstale : MendSdk.tokenValid st t₁ = false)
    (hsess : srv.session = .ok (some res)) (htok : strTruthy res.token = true)
    (horg : st.orgId = none) (hpo : res.payloadOrgs = some l)
    (hwin : ∀ t ∈ rest, t < t₁ + st.tokenTTL * 60000) :
    (MendSdk.ensureAuthSerial srv st (t₁ :: rest)).2 = [.postSession]
  ∧ (MendSdk.ensureAuthSerial srv st (t₁ :: rest)).1.jwt = res.token
  ∧ (∀ (st₂ : MendSdk.State) (now : Nat), MendSdk.tokenValid st₂ now = true →
      MendSdk.ensureAuth srv now st₂ = (.ok (), st₂, [])) := by
  have hv₁ : MendSdk.tokenValid st t₁ = false := hstale
  have hcl := completeLogin_payload_orgs srv t₁ st res l htok horg hpo
  have hau := authenticate_eq_of srv t₁ st res _ _ _ hsess htok hcl
  have hc : MendSdk.ensureAuthCrit srv t₁ st
      = (.ok (), { st with jwt := res.token,
                           jwtExpiresAt := t₁ + st.tokenTTL * 60000,
                           availableOrgs := some l },
         [.postSession]) := by
    unfold MendSdk.ensureAuthCrit
    rw [hv₁]
    simpa using hau
  have hser := ensureAuthSerial_valid srv
    { st with jwt := res.token, jwtExpiresAt := t₁ + st.tokenTTL * 60000,
              availableOrgs := some l } rest
    (fun t ht => by simp [MendSdk.tokenValid, htok, hwin t ht])
  have hmain : MendSdk.ensureAuthSerial srv st (t₁ :: rest)
      = ({ st with jwt := res.token,
                   jwtExpiresAt := t₁ + st.tokenTTL * 60000,
                   availableOrgs := some l },
         [.postSession]) := by
    unfold MendSdk.ensureAuthSerial
    rw [hc]
    dsimp only
    rw [hser]
    simp
  refine ⟨by rw [hmain], by rw [hmain], ?_⟩
  exact fun st₂ now hv => ensureAuth_valid_eq srv now st₂ hv

theorem c2_single_flight_witness :
    (MendSdk.ensureAuthSerial srvOrg stBase [100, 120, 150]).2
        = [.postSession]
  ∧ (MendSdk.ensureAuthSerial srvOrg stBase [100, 120, 150]).1.jwt
        = some "t"
  ∧ (MendSdk.ensureAuthSerial srvOrg stC10 [100, 120, 150]).2
        = [.postSession]
  ∧ (MendSdk.ensureAuthSerial srvOrg stC10 [100, 120, 150]).1.jwt
        = some "t"
  ∧ MendSdk.ensureAuth srvOrg 3 stC10 = (.ok (), stC10, []) := by
  have hfr := c2_single_flight srvOrg stBase 100 [120, 150]
    { token := some "t", payloadOrgs := some [123] } [123]
    (by decide) (by decide) (by decide) (by decide) (by decide)
    (by intro t ht; fin_cases ht <;> decide)
  have hex := c2_single_flight srvOrg stC10 100 [120, 150]
    { token := some "t", payloadOrgs := some [123] } [123]
    (by decide) (by decide) (by decide) (by decide) (by decide)
    (by intro t ht; fin_cases ht <;> decide)
  exact ⟨hfr.1, hfr.2.1, hex.1, hex.2.1, hfr.2.2 stC10 3 (by decide)⟩
